import Mathlib

/-!
Shallow embedding of `src/repo_to_agent/cli.py` (a repository indexer that
walks a directory tree, filters files, reads and truncates text content,
and assembles one document) together with theorems checking the
natural-language specification against it.

Modelling conventions:
* Python strings are sequences of code points; file *contents* are embedded
  as `List Char` (so `len` is `List.length`, slicing is `List.take`), while
  file *names* and rendered paths stay `String`.
* The filesystem is a tree (`Dir`).  `os.walk` is the external enumeration
  primitive: for each directory it either yields its entries or raises while
  listing; since `cli.py` calls `os.walk` with its default `onerror=None`,
  a listing failure is silently swallowed (the directory yields nothing and
  is not descended into) — this is embedded in `walkDir`'s `.error` branch.
* Reading a file either yields decoded text or raises; a file's `content`
  field is `Except String (List Char)` (error message, or decoded text).
* Logging and the mutable `metrics` dict become explicit state passing of
  `St`; each `log_info`/`log_warning` call appends one `Event`.
* `mimetypes.guess_type` is an external collaborator keyed by the file
  name/path; it is a parameter `guess : String → Option String`.
* `Path(repo_path).resolve()` is outside the embedding: `index_repo` takes
  the already-resolved root path string plus the tree rooted there.
-/

namespace RepoToAgent

deriving instance DecidableEq for Except

/-! ## Fixed policy tables (cli.py lines 10-24) -/

/-- SKIP_DIRS from cli.py: directory names pruned before descent. -/
def SKIP_DIRS : List String := ["node_modules", ".venv", "__pycache__", ".git"]

/-- SKIP_EXTS from cli.py: lower-cased extensions (with dot) to skip. -/
def SKIP_EXTS : List String :=
  [".xlsx", ".zip", ".jpg", ".jpeg", ".png", ".gif", ".exe", ".dll", ".pyc", ".so"]

/-- SKIP_FILES from cli.py: exact file names to skip. -/
def SKIP_FILES : List String := [".gitignore"]

/-! ## Events

One constructor per `log_info` / `log_warning` call site in cli.py,
carrying the structured fields passed at that site. -/

inductive Event where
  /-- log_info "Skipping binary file" (file_path) — inside is_binary_file -/
  | skipBinary (path : String)
  /-- log_info "Skipping by extension" (file_name, file_path) -/
  | skipExt (file_name path : String)
  /-- log_info "Skipping by filename" (file_name, file_path) -/
  | skipByName (file_name path : String)
  /-- log_info "Truncating large file" (file_path) -/
  | truncating (path : String)
  /-- log_warning "Unreadable file" (file_path, error) -/
  | unreadable (path errMsg : String)
  /-- log_info "Indexed file" (file_path, file_name, file_rel_path) -/
  | indexedFile (path file_name rel_path : String)
  /-- log_info "Skipping directory" (file_name, file_path) -/
  | skipDir (dir_name path : String)
  /-- log_info "Indexing repository" (event_name=repo_scan_start, file_path) -/
  | scanStart (path : String)
  /-- log_info "Indexing complete" (event_name=repo_scan_end, counters) -/
  | scanEnd (file_indexed file_skipped file_errors char_count : Nat)
deriving DecidableEq

/-- Numeric logging level of the call site that emits the event:
`log_warning` (= logging.WARNING = 30) is used only for "Unreadable file";
every other call site uses `log_info` (= logging.INFO = 20). -/
def Event.levelno : Event → Nat
  | .unreadable _ _ => 30
  | _ => 20

/-! ## Mutable run state

The `metrics` dict, the `file_index` list and the emitted log stream of
`index_repo`, passed explicitly. -/

structure St where
  indexed : Nat
  skipped : Nat
  errors : Nat
  file_index : List (List Char)
  events : List Event
deriving DecidableEq

/-! ## Filesystem model -/

/-- A regular file: its base name and the outcome of reading it as UTF-8
(`.ok text`, or `.error message` for a decoding/permission/I-O failure). -/
structure FSFile where
  name : String
  content : Except String (List Char)
deriving DecidableEq

/-- A directory: its base name, and what listing it yields — subdirectories
and regular files, or an enumeration failure. -/
inductive Dir where
  | mk (dname : String) (listing : Except String (List Dir × List FSFile))

def Dir.name : Dir → String
  | .mk n _ => n

def Dir.listing : Dir → Except String (List Dir × List FSFile)
  | .mk _ l => l

/-! ## Path rendering -/

/-- `str(Path(root) / c1 / ... / cn)`: the root with each component
appended after a "/". -/
def joinPath (root : String) (comps : List String) : String :=
  comps.foldl (fun acc c => acc ++ "/" ++ c) root

/-- `str(path.relative_to(repo_path))`: the relative components joined
with "/". -/
def renderRel (comps : List String) : String :=
  String.intercalate "/" comps

/-! ## pathlib suffix

`PurePath.suffix`: with `i = name.rfind(".")`, the suffix is `name[i:]`
when `0 < i < len(name) - 1`, else the empty string. -/

/-- Index of the last '.' in a list of characters (none if absent);
this is Python's `name.rfind(".")` with -1 encoded as `none`. -/
def rfindDot : List Char → Option Nat
  | [] => none
  | c :: cs =>
    match rfindDot cs with
    | some i => some (i + 1)
    | none => if c = '.' then some 0 else none

/-- Python `pathlib.PurePath.suffix` of a base name. -/
def pySuffix (name : String) : String :=
  match rfindDot name.data with
  | some i => if 0 < i ∧ i < name.data.length - 1 then ⟨name.data.drop i⟩ else ""
  | none => ""

/-- Python `str.lower` on the ASCII range (characters outside A-Z are
left unchanged; the extension table compared against is pure ASCII). -/
def char_lower (c : Char) : Char :=
  if 'A' ≤ c ∧ c ≤ 'Z' then Char.ofNat (c.toNat + 32) else c

/-- Lower-casing of a short name, character-wise. -/
def str_lower (s : String) : String :=
  ⟨s.data.map char_lower⟩

/-- Python `str.startswith`: code-point prefix test. -/
def str_startswith (s pre : String) : Bool :=
  pre.data.isPrefixOf s.data

/-! ## Classifier (cli.py lines 76-100) -/

/-- is_binary_file: guess the media type from the name; skip (and log) iff
a type was guessed and it does not start with "text". Returns the boolean
plus the events logged inside the call. -/
def is_binary_file (guess : String → Option String) (file_path : String) :
    Bool × List Event :=
  match guess file_path with
  | some mime_type =>
    if ¬ str_startswith mime_type "text" then
      (true, [Event.skipBinary file_path])
    else (false, [])
  | none => (false, [])

/-- should_skip_file: extension check, then exact-name check, then the
content-type check; each skip branch logs one event and increments
`skipped`.  `file_name` is the final component of `file_path` (the call
site builds `file_path = Path(root) / file_name`). -/
def should_skip_file (guess : String → Option String)
    (file_path file_name : String) (st : St) : Bool × St :=
  if str_lower (pySuffix file_name) ∈ SKIP_EXTS then
    (true, { st with skipped := st.skipped + 1,
                     events := st.events ++ [Event.skipExt file_name file_path] })
  else if file_name ∈ SKIP_FILES then
    (true, { st with skipped := st.skipped + 1,
                     events := st.events ++ [Event.skipByName file_name file_path] })
  else
    match is_binary_file guess file_path with
    | (true, evs) =>
      (true, { st with skipped := st.skipped + 1, events := st.events ++ evs })
    | (false, evs) => (false, { st with events := st.events ++ evs })

/-! ## Content reader (cli.py lines 103-113) -/

/-- The fixed truncation marker appended to over-long files. -/
def truncationMarker : List Char := "\n...[truncated]".data

/-- read_text_file: on successful decode, truncate past `max_chars`
characters (logging "Truncating large file"); on any read failure, log a
warning with the stringified error, bump `errors`, and return no content.
The source defaults `max_chars` to 5000; call sites here pass 5000. -/
def read_text_file (file_path : String) (content : Except String (List Char))
    (max_chars : Nat) (st : St) : Option (List Char) × St :=
  match content with
  | .ok text =>
    if text.length > max_chars then
      (some (text.take max_chars ++ truncationMarker),
       { st with events := st.events ++ [Event.truncating file_path] })
    else (some text, st)
  | .error e =>
    (none, { st with errors := st.errors + 1,
                     events := st.events ++ [Event.unreadable file_path e] })

/-! ## Indexer (cli.py lines 116-161) -/

/-- Body of the per-file loop of index_repo: classify, then read, then on
success log "Indexed file", append the section `"### {rel_path}\n{content}"`
and bump `indexed`.  `rel` is the component list of the containing
directory relative to the resolved root. -/
def processFile (guess : String → Option String) (root : String)
    (rel : List String) (f : FSFile) (st : St) : St :=
  let file_path := joinPath root (rel ++ [f.name])
  match should_skip_file guess file_path f.name st with
  | (true, st) => st
  | (false, st) =>
    match read_text_file file_path f.content 5000 st with
    | (some content, st) =>
      let rel_path := renderRel (rel ++ [f.name])
      { st with
        events := st.events ++ [Event.indexedFile file_path f.name rel_path],
        file_index := st.file_index ++ [("### " ++ rel_path ++ "\n").data ++ content],
        indexed := st.indexed + 1 }
    | (none, st) => st

/-- The `for file in files` loop over one directory's regular files. -/
def processFiles (guess : String → Option String) (root : String)
    (rel : List String) (files : List FSFile) (st : St) : St :=
  match files with
  | [] => st
  | f :: fs => processFiles guess root rel fs (processFile guess root rel f st)

/-- The "Skipping directory" events logged when visiting one directory:
`skipped_dirs = set(original_dirs) - set(dirs)` is the set of listed
subdirectory names belonging to SKIP_DIRS; the set is realised as the
duplicate-free list of those names (listing order; a real listing has no
duplicate names).  Each gets one event with `file_path = root/name`. -/
def pruneEvents (dirPath : String) (subdirNames : List String) : List Event :=
  ((subdirNames.filter (fun d => decide (d ∈ SKIP_DIRS))).dedup).map
    (fun d => Event.skipDir d (dirPath ++ "/" ++ d))

/-- One entry yielded by `os.walk`: the visited directory's components
relative to the resolved root, its listed subdirectory names, and its
regular files. -/
structure WalkTuple where
  rel : List String
  subdirNames : List String
  files : List FSFile
deriving DecidableEq

mutual
/-- The sequence of `(root, dirs, files)` entries `os.walk(repo_path)`
yields top-down under the loop body's pruning assignment
`dirs[:] = [d for d in dirs if d not in SKIP_DIRS]` (the walk reads the
pruned list before descending, so pruned subdirectories are never
yielded).  A directory that fails to enumerate yields nothing — `os.walk`
is called with its default `onerror=None`, which ignores the `scandir`
error — and is not descended into. -/
def os_walk (rel : List String) (d : Dir) : List WalkTuple :=
  match d with
  | .mk _ (.error _) => []
  | .mk _ (.ok (subdirs, files)) =>
    ⟨rel, subdirs.map Dir.name, files⟩ :: os_walkList rel subdirs

/-- Entries of the walk below each subdirectory in listing order; pruned
names are skipped. -/
def os_walkList (rel : List String) (ds : List Dir) : List WalkTuple :=
  match ds with
  | [] => []
  | d :: ds =>
    (if Dir.name d ∈ SKIP_DIRS then [] else os_walk (rel ++ [d.name]) d)
      ++ os_walkList rel ds
end

/-- Body of the `for root, dirs, files in os.walk(repo_path)` loop of
index_repo: log one "Skipping directory" event per pruned subdirectory
name, then run the per-file loop. -/
def processTuple (guess : String → Option String) (root : String)
    (st : St) (t : WalkTuple) : St :=
  processFiles guess root t.rel t.files
    { st with events := st.events ++
        pruneEvents (joinPath root t.rel) t.subdirNames }

/-- What `index_repo` produces: the returned document plus the final
metrics and the emitted log stream. -/
structure RunResult where
  document : List Char
  indexed : Nat
  skipped : Nat
  errors : Nat
  char_count : Nat
  events : List Event
deriving DecidableEq

/-- index_repo: emit the start event, run the os.walk loop from the
resolved root, join the file index with single newlines, record
`char_count`, emit the summary event, and return the document. -/
def index_repo (guess : String → Option String) (repo_path : String)
    (tree : Dir) : RunResult :=
  let st0 : St :=
    { indexed := 0, skipped := 0, errors := 0, file_index := [],
      events := [Event.scanStart repo_path] }
  let st := (os_walk [] tree).foldl (processTuple guess repo_path) st0
  let result := List.intercalate ['\n'] st.file_index
  { document := result,
    indexed := st.indexed, skipped := st.skipped, errors := st.errors,
    char_count := result.length,
    events := st.events ++
      [Event.scanEnd st.indexed st.skipped st.errors result.length] }

/-! ## Event emitter (cli.py lines 26-53): OTELJsonFormatter

The formatter turns a Python `logging` record into a flat JSON object.
Values are strings or integers (`JVal`); the record is an association
list.  The wall clock (`datetime.utcnow().isoformat()`) and the global
`TRACE_ID` (generated once per invocation) are external inputs, passed as
parameters. -/

inductive JVal where
  | s (v : String)
  | n (v : Nat)
deriving DecidableEq

/-- Python logging module level constants. -/
def DEBUG : Nat := 10

def INFO : Nat := 20

def WARNING : Nat := 30

def ERROR : Nat := 40

def CRITICAL : Nat := 50

/-- OTELJsonFormatter.map_severity: the literal dict lookup with
default 1. -/
def map_severity (level : Nat) : Nat :=
  if level = DEBUG then 5
  else if level = INFO then 9
  else if level = WARNING then 13
  else if level = ERROR then 17
  else if level = CRITICAL then 21
  else 1

/-- The fields of a `logging.LogRecord` the formatter reads; `extra` is
the structured key/value dict attached by `log_info`/`log_warning`
(absent when the record was created without one). -/
structure LogRecord where
  levelname : String
  levelno : Nat
  message : String
  name : String
  funcName : String
  extra : Option (List (String × JVal))

/-- First value stored under a key in an association-list dict
(a Python dict read). -/
def lookupKey (k : String) : List (String × JVal) → Option JVal
  | [] => none
  | kv :: rest => if kv.1 = k then some kv.2 else lookupKey k rest

/-- Python `base.update(extra)` on association lists: keys already in
`base` keep their position and take `extra`'s value; keys only in `extra`
are appended in `extra`'s order. -/
def dictUpdate (base extra : List (String × JVal)) : List (String × JVal) :=
  base.map (fun kv =>
    match lookupKey kv.1 extra with
    | some v => (kv.1, v)
    | none => kv)
  ++ extra.filter (fun kv => (lookupKey kv.1 base).isNone)

/-- OTELJsonFormatter.format: the base object, updated with the record's
`extra` dict when present. -/
def OTELJsonFormatter.format (trace_id utcnow_iso : String)
    (record : LogRecord) : List (String × JVal) :=
  let base : List (String × JVal) :=
    [("timestamp", .s (utcnow_iso ++ "Z")),
     ("severity_text", .s record.levelname),
     ("severity_number", .n (map_severity record.levelno)),
     ("message", .s record.message),
     ("trace_id", .s trace_id),
     ("logger.name", .s record.name),
     ("code.function", .s record.funcName)]
  match record.extra with
  | some extra => dictUpdate base extra
  | none => base

/-! ## Per-file classification and the visited-file list

Pure spec-level views of the traversal, used to state the counting and
document-assembly properties. -/

/-- The five possible outcomes for a visited file. -/
inductive FileClass where
  | isIndexed
  | byExt
  | byName
  | byBinary
  | readError
deriving DecidableEq

/-- Outcome of the per-file pipeline for one visited file: the same
checks `should_skip_file` and `read_text_file` perform, in the same
short-circuit order. -/
def classifyFile (guess : String → Option String) (file_path : String)
    (f : FSFile) : FileClass :=
  if str_lower (pySuffix f.name) ∈ SKIP_EXTS then .byExt
  else if f.name ∈ SKIP_FILES then .byName
  else if (is_binary_file guess file_path).1 then .byBinary
  else
    match f.content with
    | .ok _ => .isIndexed
    | .error _ => .readError

/-- The files one walk entry contributes, each paired with its
containing directory's relative components. -/
def visitedOf (t : WalkTuple) : List (List String × FSFile) :=
  t.files.map (fun f => (t.rel, f))

/-- The regular files the traversal visits in and below directory `d`
(whose relative component list is `rel`): the files of every reachable,
successfully enumerated, non-pruned directory, in traversal order. -/
def visitedFiles (rel : List String) (d : Dir) : List (List String × FSFile) :=
  (os_walk rel d).flatMap visitedOf

/-- Number of visited files whose classification is `c`. -/
def countClass (guess : String → Option String) (root : String)
    (vs : List (List String × FSFile)) (c : FileClass) : Nat :=
  vs.countP (fun rf =>
    decide (classifyFile guess (joinPath root (rf.1 ++ [rf.2.name])) rf.2 = c))

/-- Stored content per the spec's truncation law (limit 5000): texts
longer than the limit become their first 5000 characters followed by the
fixed marker; shorter texts are stored unchanged. -/
def specStoredContent (text : List Char) : List Char :=
  if text.length > 5000 then text.take 5000 ++ truncationMarker else text

/-- The spec's File Index section for one visited file:
`"### " + relativePath + "\n" + content`. -/
def specSection (rf : List String × FSFile) : List Char :=
  ("### " ++ renderRel (rf.1 ++ [rf.2.name]) ++ "\n").data ++
    specStoredContent ((Except.toOption rf.2.content).getD [])

/-- The spec's File Index: the sections of exactly the successfully read
visited files, in traversal order. -/
def specSections (guess : String → Option String) (root : String)
    (vs : List (List String × FSFile)) : List (List Char) :=
  (vs.filter (fun rf =>
      decide (classifyFile guess (joinPath root (rf.1 ++ [rf.2.name])) rf.2
        = FileClass.isIndexed))).map specSection

/-! ## Helper lemmas relating the stateful pipeline to the pure views -/

theorem is_binary_file_snd (guess : String → Option String) (fp : String) :
    (is_binary_file guess fp).2 =
      (if (is_binary_file guess fp).1 = true then [Event.skipBinary fp] else []) := by
  rcases hg : guess fp with _ | t
  · simp [is_binary_file, hg]
  · by_cases h : str_startswith t "text" <;> simp [is_binary_file, hg, h]

theorem countClass_nil (guess : String → Option String) (root : String)
    (c : FileClass) : countClass guess root [] c = 0 := rfl

theorem countClass_cons (guess : String → Option String) (root : String)
    (x : List String × FSFile) (l : List (List String × FSFile)) (c : FileClass) :
    countClass guess root (x :: l) c =
      countClass guess root l c +
        (if classifyFile guess (joinPath root (x.1 ++ [x.2.name])) x.2 = c
         then 1 else 0) := by
  simp [countClass, List.countP_cons]

theorem countClass_append (guess : String → Option String) (root : String)
    (l₁ l₂ : List (List String × FSFile)) (c : FileClass) :
    countClass guess root (l₁ ++ l₂) c =
      countClass guess root l₁ c + countClass guess root l₂ c := by
  simp [countClass, List.countP_append]

theorem specSections_cons (guess : String → Option String) (root : String)
    (x : List String × FSFile) (l : List (List String × FSFile)) :
    specSections guess root (x :: l) =
      (if classifyFile guess (joinPath root (x.1 ++ [x.2.name])) x.2
          = FileClass.isIndexed
       then [specSection x] else []) ++ specSections guess root l := by
  simp only [specSections, List.filter_cons]
  split <;> simp_all

theorem specSections_append (guess : String → Option String) (root : String)
    (l₁ l₂ : List (List String × FSFile)) :
    specSections guess root (l₁ ++ l₂) =
      specSections guess root l₁ ++ specSections guess root l₂ := by
  simp [specSections, List.filter_append]

theorem processFile_spec (guess : String → Option String) (root : String)
    (rel : List String) (f : FSFile) (st : St) :
    (processFile guess root rel f st).indexed
        = st.indexed +
          (if classifyFile guess (joinPath root (rel ++ [f.name])) f
              = FileClass.isIndexed then 1 else 0)
    ∧ (processFile guess root rel f st).skipped
        = st.skipped +
          ((if classifyFile guess (joinPath root (rel ++ [f.name])) f
               = FileClass.byExt then 1 else 0) +
           (if classifyFile guess (joinPath root (rel ++ [f.name])) f
               = FileClass.byName then 1 else 0) +
           (if classifyFile guess (joinPath root (rel ++ [f.name])) f
               = FileClass.byBinary then 1 else 0))
    ∧ (processFile guess root rel f st).errors
        = st.errors +
          (if classifyFile guess (joinPath root (rel ++ [f.name])) f
              = FileClass.readError then 1 else 0)
    ∧ (processFile guess root rel f st).file_index
        = st.file_index ++
          (if classifyFile guess (joinPath root (rel ++ [f.name])) f
              = FileClass.isIndexed then [specSection (rel, f)] else []) := by
  by_cases h1 : str_lower (pySuffix f.name) ∈ SKIP_EXTS
  · simp [processFile, should_skip_file, classifyFile, h1]
  · by_cases h2 : f.name ∈ SKIP_FILES
    · simp [processFile, should_skip_file, classifyFile, h1, h2]
    · rcases hb : is_binary_file guess (joinPath root (rel ++ [f.name])) with ⟨b, evs⟩
      cases b with
      | true => simp [processFile, should_skip_file, classifyFile, h1, h2, hb]
      | false =>
        rcases hc : f.content with e | text
        · simp [processFile, should_skip_file, classifyFile, read_text_file,
                h1, h2, hb, hc]
        · by_cases h3 : text.length > 5000
          · simp [processFile, should_skip_file, classifyFile, read_text_file,
                  specSection, specStoredContent, Except.toOption,
                  h1, h2, hb, hc, h3]
          · simp [processFile, should_skip_file, classifyFile, read_text_file,
                  specSection, specStoredContent, Except.toOption,
                  h1, h2, hb, hc, h3]

theorem processFiles_spec (guess : String → Option String) (root : String)
    (rel : List String) (files : List FSFile) (st : St) :
    (processFiles guess root rel files st).indexed
        = st.indexed +
          countClass guess root (files.map (fun f => (rel, f))) FileClass.isIndexed
    ∧ (processFiles guess root rel files st).skipped
        = st.skipped +
          (countClass guess root (files.map (fun f => (rel, f))) FileClass.byExt +
           countClass guess root (files.map (fun f => (rel, f))) FileClass.byName +
           countClass guess root (files.map (fun f => (rel, f))) FileClass.byBinary)
    ∧ (processFiles guess root rel files st).errors
        = st.errors +
          countClass guess root (files.map (fun f => (rel, f))) FileClass.readError
    ∧ (processFiles guess root rel files st).file_index
        = st.file_index ++
          specSections guess root (files.map (fun f => (rel, f))) := by
  induction files generalizing st with
  | nil => simp [processFiles, countClass, specSections]
  | cons f fs ih =>
    obtain ⟨ih1, ih2, ih3, ih4⟩ := ih (processFile guess root rel f st)
    obtain ⟨p1, p2, p3, p4⟩ := processFile_spec guess root rel f st
    rw [processFiles]
    refine ⟨?_, ?_, ?_, ?_⟩
    · rw [ih1, p1, List.map_cons, countClass_cons]; dsimp only; omega
    · rw [ih2, p2, List.map_cons, countClass_cons, countClass_cons,
          countClass_cons]; dsimp only; omega
    · rw [ih3, p3, List.map_cons, countClass_cons]; dsimp only; omega
    · rw [ih4, p4, List.map_cons, specSections_cons]; dsimp only
      rw [List.append_assoc]

/-- Projection facts for the events-only state update used when a
directory logs its pruned subdirectories. -/
theorem St_upd_events_indexed (st : St) (evs : List Event) :
    ({ st with events := evs } : St).indexed = st.indexed := rfl

theorem St_upd_events_skipped (st : St) (evs : List Event) :
    ({ st with events := evs } : St).skipped = st.skipped := rfl

theorem St_upd_events_errors (st : St) (evs : List Event) :
    ({ st with events := evs } : St).errors = st.errors := rfl

theorem St_upd_events_file_index (st : St) (evs : List Event) :
    ({ st with events := evs } : St).file_index = st.file_index := rfl

/-- The os.walk loop's metric deltas over any entry list are the
per-class counts over the files those entries contribute, and its
file-index delta is the spec's section list. -/
theorem foldTuples_spec (guess : String → Option String) (root : String)
    (ts : List WalkTuple) (st : St) :
    (ts.foldl (processTuple guess root) st).indexed
        = st.indexed +
          countClass guess root (ts.flatMap visitedOf) FileClass.isIndexed
    ∧ (ts.foldl (processTuple guess root) st).skipped
        = st.skipped +
          (countClass guess root (ts.flatMap visitedOf) FileClass.byExt +
           countClass guess root (ts.flatMap visitedOf) FileClass.byName +
           countClass guess root (ts.flatMap visitedOf) FileClass.byBinary)
    ∧ (ts.foldl (processTuple guess root) st).errors
        = st.errors +
          countClass guess root (ts.flatMap visitedOf) FileClass.readError
    ∧ (ts.foldl (processTuple guess root) st).file_index
        = st.file_index ++
          specSections guess root (ts.flatMap visitedOf) := by
  induction ts generalizing st with
  | nil => simp [countClass, specSections]
  | cons t ts ih =>
    obtain ⟨f1, f2, f3, f4⟩ :=
      processFiles_spec guess root t.rel t.files
        { st with events := st.events ++
            pruneEvents (joinPath root t.rel) t.subdirNames }
    obtain ⟨ih1, ih2, ih3, ih4⟩ := ih (processTuple guess root st t)
    rw [List.foldl_cons]
    refine ⟨?_, ?_, ?_, ?_⟩
    · rw [ih1, List.flatMap_cons, countClass_append]
      rw [processTuple, f1, St_upd_events_indexed, visitedOf]
      omega
    · rw [ih2, List.flatMap_cons, countClass_append, countClass_append,
          countClass_append]
      rw [processTuple, f2, St_upd_events_skipped, visitedOf]
      omega
    · rw [ih3, List.flatMap_cons, countClass_append]
      rw [processTuple, f3, St_upd_events_errors, visitedOf]
      omega
    · rw [ih4, List.flatMap_cons, specSections_append]
      rw [processTuple, f4, St_upd_events_file_index, visitedOf,
          List.append_assoc]

/-- The five classification counts partition the visited files. -/
theorem countClass_partition (guess : String → Option String) (root : String)
    (vs : List (List String × FSFile)) :
    countClass guess root vs FileClass.isIndexed +
      (countClass guess root vs FileClass.byExt +
       countClass guess root vs FileClass.byName +
       countClass guess root vs FileClass.byBinary) +
      countClass guess root vs FileClass.readError = vs.length := by
  induction vs with
  | nil => simp [countClass]
  | cons x l ih =>
    rw [countClass_cons, countClass_cons, countClass_cons, countClass_cons,
        countClass_cons, List.length_cons]
    rcases classifyFile guess (joinPath root (x.1 ++ [x.2.name])) x.2 <;>
      simp <;> omega

/-- A non-skipping run of should_skip_file leaves the state unchanged and
means all three checks failed. -/
theorem should_skip_file_eq_false (guess : String → Option String)
    (fp fn : String) (st : St)
    (h : (should_skip_file guess fp fn st).1 = false) :
    should_skip_file guess fp fn st = (false, st)
    ∧ str_lower (pySuffix fn) ∉ SKIP_EXTS
    ∧ fn ∉ SKIP_FILES
    ∧ (is_binary_file guess fp).1 = false := by
  have hsnd := is_binary_file_snd guess fp
  by_cases h1 : str_lower (pySuffix fn) ∈ SKIP_EXTS
  · simp [should_skip_file, h1] at h
  · by_cases h2 : fn ∈ SKIP_FILES
    · simp [should_skip_file, h1, h2] at h
    · rcases hb : is_binary_file guess fp with ⟨b, evs⟩
      rw [hb] at hsnd
      cases b
      · simp at hsnd
        subst hsnd
        simp [should_skip_file, h1, h2, hb]
      · simp [should_skip_file, h1, h2, hb] at h

/-- rfind returns no index when the character is absent. -/
theorem rfindDot_eq_none (cs : List Char) (h : '.' ∉ cs) :
    rfindDot cs = none := by
  induction cs with
  | nil => rfl
  | cons c cs ih =>
    have hc : ¬ (c = '.') := fun hc => h (hc ▸ List.mem_cons_self c cs)
    rw [rfindDot, ih (fun hm => h (List.mem_cons_of_mem _ hm))]
    simp [hc]

/-! ## Claim theorems -/

/-- C2: for every file, the skip checks run in the fixed order
extension, then exact name, then content-type guess; the first matching
check short-circuits the rest; every skip decision increments `skipped`
by exactly one and appends exactly one event naming its reason; when no
check matches, the state is unchanged. -/
theorem skip_order_and_effects (guess : String → Option String)
    (file_path file_name : String) (st : St) :
    (str_lower (pySuffix file_name) ∈ SKIP_EXTS →
      should_skip_file guess file_path file_name st =
        (true, { st with skipped := st.skipped + 1,
                         events := st.events ++
                           [Event.skipExt file_name file_path] }))
    ∧ (str_lower (pySuffix file_name) ∉ SKIP_EXTS → file_name ∈ SKIP_FILES →
      should_skip_file guess file_path file_name st =
        (true, { st with skipped := st.skipped + 1,
                         events := st.events ++
                           [Event.skipByName file_name file_path] }))
    ∧ (str_lower (pySuffix file_name) ∉ SKIP_EXTS → file_name ∉ SKIP_FILES →
      (is_binary_file guess file_path).1 = true →
      should_skip_file guess file_path file_name st =
        (true, { st with skipped := st.skipped + 1,
                         events := st.events ++
                           [Event.skipBinary file_path] }))
    ∧ (str_lower (pySuffix file_name) ∉ SKIP_EXTS → file_name ∉ SKIP_FILES →
      (is_binary_file guess file_path).1 = false →
      should_skip_file guess file_path file_name st = (false, st)) := by
  have hsnd := is_binary_file_snd guess file_path
  refine ⟨?_, ?_, ?_, ?_⟩
  · intro h1
    simp [should_skip_file, h1]
  · intro h1 h2
    simp [should_skip_file, h1, h2]
  · intro h1 h2 h3
    rcases hb : is_binary_file guess file_path with ⟨b, evs⟩
    rw [hb] at hsnd h3
    subst h3
    simp at hsnd
    subst hsnd
    simp [should_skip_file, h1, h2, hb]
  · intro h1 h2 h3
    rcases hb : is_binary_file guess file_path with ⟨b, evs⟩
    rw [hb] at hsnd h3
    subst h3
    simp at hsnd
    subst hsnd
    simp [should_skip_file, h1, h2, hb]

/-- Witness for C2: a ".zip" file is skipped by the extension rule with
one event and one `skipped` increment. -/
theorem skip_order_and_effects_witness :
    should_skip_file (fun _ => none) "/r/a.zip" "a.zip"
        { indexed := 0, skipped := 0, errors := 0, file_index := [],
          events := [] }
      = (true, { indexed := 0, skipped := 1, errors := 0, file_index := [],
                 events := [Event.skipExt "a.zip" "/r/a.zip"] }) :=
  (skip_order_and_effects (fun _ => none) "/r/a.zip" "a.zip"
      { indexed := 0, skipped := 0, errors := 0, file_index := [],
        events := [] }).1 (by decide)

/-- C3: a decoded text longer than `max_chars` is stored as its first
`max_chars` characters followed by the fixed marker (so its length is
`max_chars + len(marker)` and its first `max_chars` characters are
unchanged) and one informational "truncating" event is logged; a text
within the limit is stored unchanged with no event. -/
theorem truncation_law (file_path : String) (text : List Char) (st : St)
    (max_chars : Nat) :
    (text.length > max_chars →
        read_text_file file_path (Except.ok text) max_chars st
          = (some (text.take max_chars ++ truncationMarker),
             { st with events := st.events ++ [Event.truncating file_path] })
      ∧ (text.take max_chars ++ truncationMarker).length
          = max_chars + truncationMarker.length
      ∧ (text.take max_chars ++ truncationMarker).take max_chars
          = text.take max_chars
      ∧ (Event.truncating file_path).levelno = INFO)
    ∧ (¬ text.length > max_chars →
        read_text_file file_path (Except.ok text) max_chars st
          = (some text, st)) := by
  constructor
  · intro h
    have hlen : (text.take max_chars).length = max_chars := by
      rw [List.length_take]; omega
    refine ⟨by simp [read_text_file, h], ?_, ?_, rfl⟩
    · rw [List.length_append, hlen]
    · rw [List.take_append_of_le_length (by omega), List.take_take]
      simp
  · intro h
    simp [read_text_file, h]

/-- Witness for C3: with limit 3, "abcde" is stored as "abc" plus the
marker, with one truncating event. -/
theorem truncation_law_witness :
    read_text_file "f" (Except.ok "abcde".data) 3
        { indexed := 0, skipped := 0, errors := 0, file_index := [],
          events := [] }
      = (some ("abcde".data.take 3 ++ truncationMarker),
         { indexed := 0, skipped := 0, errors := 0, file_index := [],
           events := [Event.truncating "f"] }) :=
  ((truncation_law "f" "abcde".data
      { indexed := 0, skipped := 0, errors := 0, file_index := [],
        events := [] } 3).1 (by decide)).1

/-- C8: a file reaching the content-type check is skipped as binary iff
a media type is guessed from its name and that type is not textual; no
guess means no skip by this rule; the check logs exactly one event when
and only when it skips. -/
theorem binary_rule (guess : String → Option String) (file_path : String) :
    ((is_binary_file guess file_path).1 = true ↔
      ∃ t, guess file_path = some t ∧ str_startswith t "text" = false)
    ∧ (is_binary_file guess file_path).2
        = (if (is_binary_file guess file_path).1 = true
           then [Event.skipBinary file_path] else []) := by
  refine ⟨?_, is_binary_file_snd guess file_path⟩
  rcases hg : guess file_path with _ | t
  · simp [is_binary_file, hg]
  · by_cases h : str_startswith t "text" <;> simp [is_binary_file, hg, h]

/-- C10: a base name that starts with a dot and has no other dot has an
empty computed extension, so the extension rule cannot match it: it can
only be skipped by the exact-name rule or the content-type rule. -/
theorem dotfile_classification (name : String)
    (h1 : name.data.head? = some '.') (h2 : '.' ∉ name.data.tail) :
    pySuffix name = ""
    ∧ ∀ (guess : String → Option String) (file_path : String) (st : St),
        (should_skip_file guess file_path name st).1 = true →
          name ∈ SKIP_FILES ∨ (is_binary_file guess file_path).1 = true := by
  have hsuf : pySuffix name = "" := by
    rcases hnd : name.data with _ | ⟨c, cs⟩
    · rw [hnd] at h1; simp at h1
    · rw [hnd] at h1 h2
      simp at h1 h2
      subst h1
      have hr : rfindDot ('.' :: cs) = some 0 := by
        rw [rfindDot, rfindDot_eq_none cs h2]
        decide
      simp [pySuffix, hnd, hr]
  refine ⟨hsuf, ?_⟩
  intro guess file_path st hskip
  have hext : str_lower (pySuffix name) ∉ SKIP_EXTS := by
    rw [hsuf]; decide
  by_cases hn : name ∈ SKIP_FILES
  · exact Or.inl hn
  · rcases hb : is_binary_file guess file_path with ⟨b, evs⟩
    cases b
    · simp [should_skip_file, hext, hn, hb] at hskip
    · exact Or.inr (by simp [hb])

/-- Witness for C10: ".gitignore" has empty suffix. -/
theorem dotfile_classification_witness : pySuffix ".gitignore" = "" :=
  (dotfile_classification ".gitignore" (by decide) (by decide)).1

/-- C4: a file that passes the skip checks but fails to read yields one
warning event carrying its path and the stringified error, increments
`errors` by exactly one, contributes nothing to the file index, leaves
`indexed` and `skipped` unchanged, read_text_file returns no content, and
the file loop continues with the next file. -/
theorem read_failure_handling (guess : String → Option String) (root : String)
    (rel : List String) (f : FSFile) (st : St) (e : String)
    (hskip : (should_skip_file guess (joinPath root (rel ++ [f.name]))
                f.name st).1 = false)
    (herr : f.content = Except.error e) :
    processFile guess root rel f st
      = { st with errors := st.errors + 1,
                  events := st.events ++
                    [Event.unreadable (joinPath root (rel ++ [f.name])) e] }
    ∧ (read_text_file (joinPath root (rel ++ [f.name])) f.content 5000 st).1
        = none
    ∧ (Event.unreadable (joinPath root (rel ++ [f.name])) e).levelno = WARNING
    ∧ ∀ fs : List FSFile,
        processFiles guess root rel (f :: fs) st
          = processFiles guess root rel fs (processFile guess root rel f st) := by
  obtain ⟨heq, -, -, -⟩ := should_skip_file_eq_false _ _ _ _ hskip
  refine ⟨?_, ?_, rfl, fun fs => rfl⟩
  · simp [processFile, heq, read_text_file, herr]
  · simp [read_text_file, herr]

/-- Witness for C4: an unreadable "data.txt" bumps only `errors` and
logs the warning with path and error. -/
theorem read_failure_handling_witness :
    processFile (fun _ => none) "/r" []
        ⟨"data.txt", Except.error "Permission denied"⟩
        ⟨0, 0, 0, [], []⟩
      = ⟨0, 0, 1, [], [Event.unreadable "/r/data.txt" "Permission denied"]⟩ :=
  (read_failure_handling (fun _ => none) "/r" []
      ⟨"data.txt", Except.error "Permission denied"⟩
      ⟨0, 0, 0, [], []⟩ "Permission denied" (by decide) rfl).1

/-- C5 amended: a directory whose enumeration fails is silently ignored
(`os.walk` runs with its default `onerror=None`): it yields no walk
entries, nothing beneath it is visited or counted, no event is emitted
for it, and the run completes normally — for a failing root the run
still returns an (empty) Document and emits the summary event. -/
theorem enumeration_failure_ignored (guess : String → Option String)
    (root : String) (rel : List String) (n msg : String) :
    os_walk rel (Dir.mk n (Except.error msg)) = []
    ∧ index_repo guess root (Dir.mk n (Except.error msg))
      = { document := [], indexed := 0, skipped := 0, errors := 0,
          char_count := 0,
          events := [Event.scanStart root, Event.scanEnd 0 0 0 0] } := by
  constructor
  · rw [os_walk]
  · rfl

/-- Counterexample to C5 as stated: on a root whose enumeration fails
with a permission error, the run does not terminate without a Document —
it completes, returns the empty Document with zero counters, and emits
the start and summary events. -/
theorem enumeration_failure_counterexample :
    index_repo (fun _ => none) "/repo"
        (Dir.mk "repo" (Except.error "Permission denied"))
      = { document := [], indexed := 0, skipped := 0, errors := 0,
          char_count := 0,
          events := [Event.scanStart "/repo", Event.scanEnd 0 0 0 0] } := by
  decide

/-- os_walk distributes over subdirectory list concatenation. -/
theorem os_walkList_append (rel : List String) (l₁ l₂ : List Dir) :
    os_walkList rel (l₁ ++ l₂) = os_walkList rel l₁ ++ os_walkList rel l₂ := by
  induction l₁ with
  | nil => rw [List.nil_append, os_walkList, List.nil_append]
  | cons d ds ih =>
    rw [List.cons_append, os_walkList, os_walkList, ih, List.append_assoc]

/-- C6: a subdirectory whose name is in the fixed prune set is pruned
before descent — replacing its entire subtree by any other directory
with the same name changes neither the walk nor the run's Document,
counters, or events — and the visit of its parent logs exactly one
"Skipping directory" event carrying its name and path. -/
theorem pruned_dir_invisible (guess : String → Option String) (root : String)
    (rel : List String) (n : String) (pre post : List Dir) (s s' : Dir)
    (files : List FSFile)
    (hmem : s.name ∈ SKIP_DIRS) (hname : Dir.name s' = Dir.name s) :
    os_walk rel (Dir.mk n (Except.ok (pre ++ s :: post, files)))
      = os_walk rel (Dir.mk n (Except.ok (pre ++ s' :: post, files)))
    ∧ index_repo guess root (Dir.mk n (Except.ok (pre ++ s :: post, files)))
      = index_repo guess root (Dir.mk n (Except.ok (pre ++ s' :: post, files)))
    ∧ (pruneEvents (joinPath root rel) ((pre ++ s :: post).map Dir.name)).count
        (Event.skipDir s.name (joinPath root rel ++ "/" ++ s.name)) = 1 := by
  have hmem' : Dir.name s' ∈ SKIP_DIRS := by rw [hname]; exact hmem
  have hw : ∀ r : List String,
      os_walk r (Dir.mk n (Except.ok (pre ++ s :: post, files)))
        = os_walk r (Dir.mk n (Except.ok (pre ++ s' :: post, files))) := by
    intro r
    have htails : os_walkList r (pre ++ s :: post)
        = os_walkList r (pre ++ s' :: post) := by
      rw [os_walkList_append, os_walkList_append, os_walkList, os_walkList,
          if_pos hmem, if_pos hmem']
    have hheads : (pre ++ s :: post).map Dir.name
        = (pre ++ s' :: post).map Dir.name := by
      simp [hname]
    rw [os_walk, os_walk, hheads, htails]
  refine ⟨hw rel, ?_, ?_⟩
  · simp only [index_repo]
    rw [hw []]
  · have hf : Function.Injective
        (fun d : String => Event.skipDir d (joinPath root rel ++ "/" ++ d)) := by
      intro a b h
      simp only [Event.skipDir.injEq] at h
      exact h.1
    have hmemf : s.name ∈
        ((pre ++ s :: post).map Dir.name).filter
          (fun d => decide (d ∈ SKIP_DIRS)) := by
      rw [List.mem_filter]
      refine ⟨List.mem_map_of_mem Dir.name (by simp), by simpa using hmem⟩
    rw [pruneEvents,
        List.count_map_of_injective _ _ hf s.name,
        List.count_dedup, if_pos hmemf]

/-- Witness for C6: replacing the contents of a pruned "node_modules"
with an empty one changes nothing about the run. -/
theorem pruned_dir_invisible_witness :
    index_repo (fun _ => none) "/r"
        (Dir.mk "r" (Except.ok
          ([] ++ Dir.mk "node_modules"
              (Except.ok ([], [⟨"c.txt", Except.ok "ignored".data⟩])) :: [],
           [])))
      = index_repo (fun _ => none) "/r"
        (Dir.mk "r" (Except.ok
          ([] ++ Dir.mk "node_modules" (Except.ok ([], [])) :: [], []))) :=
  (pruned_dir_invisible (fun _ => none) "/r" [] "r" [] []
      (Dir.mk "node_modules"
        (Except.ok ([], [⟨"c.txt", Except.ok "ignored".data⟩])))
      (Dir.mk "node_modules" (Except.ok ([], []))) []
      (by decide) rfl).2.1

/-- C1 amended: indexed + skipped + errors equals the number of visited
files, and the five per-class counts show each visited file lands in
exactly one of {indexed, skipped-by-extension, skipped-by-name,
skipped-binary, error}. -/
theorem file_accounting (guess : String → Option String) (root : String)
    (tree : Dir) :
    (index_repo guess root tree).indexed + (index_repo guess root tree).skipped
        + (index_repo guess root tree).errors
      = (visitedFiles [] tree).length
    ∧ (index_repo guess root tree).indexed
      = countClass guess root (visitedFiles [] tree) FileClass.isIndexed
    ∧ (index_repo guess root tree).skipped
      = countClass guess root (visitedFiles [] tree) FileClass.byExt +
        countClass guess root (visitedFiles [] tree) FileClass.byName +
        countClass guess root (visitedFiles [] tree) FileClass.byBinary
    ∧ (index_repo guess root tree).errors
      = countClass guess root (visitedFiles [] tree) FileClass.readError := by
  obtain ⟨h1, h2, h3, h4⟩ :=
    foldTuples_spec guess root (os_walk [] tree)
      { indexed := 0, skipped := 0, errors := 0, file_index := [],
        events := [Event.scanStart root] }
  have e1 : (index_repo guess root tree).indexed
      = ((os_walk [] tree).foldl (processTuple guess root)
          { indexed := 0, skipped := 0, errors := 0, file_index := [],
            events := [Event.scanStart root] }).indexed := rfl
  have e2 : (index_repo guess root tree).skipped
      = ((os_walk [] tree).foldl (processTuple guess root)
          { indexed := 0, skipped := 0, errors := 0, file_index := [],
            events := [Event.scanStart root] }).skipped := rfl
  have e3 : (index_repo guess root tree).errors
      = ((os_walk [] tree).foldl (processTuple guess root)
          { indexed := 0, skipped := 0, errors := 0, file_index := [],
            events := [Event.scanStart root] }).errors := rfl
  have hp := countClass_partition guess root ((os_walk [] tree).flatMap visitedOf)
  simp only [visitedFiles]
  refine ⟨?_, ?_, ?_, ?_⟩
  · rw [e1, e2, e3, h1, h2, h3]
    simpa using hp
  · rw [e1, h1]
    simp
  · rw [e2, h2]
    simp
  · rw [e3, h3]
    simp

/-- Counterexample to C1 as stated: on a tree with a single unreadable
file, `indexed + skipped` is 0 while one regular file was visited — the
`errors` tally is missing from the claimed sum. -/
theorem file_accounting_counterexample :
    ¬ ((index_repo (fun _ => none) "/r"
          (Dir.mk "r" (Except.ok
            ([], [⟨"a.txt", Except.error "Permission denied"⟩])))).indexed
        + (index_repo (fun _ => none) "/r"
            (Dir.mk "r" (Except.ok
              ([], [⟨"a.txt", Except.error "Permission denied"⟩])))).skipped
      = (visitedFiles []
          (Dir.mk "r" (Except.ok
            ([], [⟨"a.txt", Except.error "Permission denied"⟩])))).length) := by
  decide

/-- C7: the returned Document is exactly the spec's File Index sections
— one section `"### " ++ relativePath ++ "\n" ++ content` per
successfully read file, in traversal order — joined with a single
newline, and `char_count` is the Document's length. -/
theorem document_assembly (guess : String → Option String) (root : String)
    (tree : Dir) :
    (index_repo guess root tree).document
      = List.intercalate ['\n'] (specSections guess root (visitedFiles [] tree))
    ∧ (index_repo guess root tree).char_count
      = (index_repo guess root tree).document.length := by
  obtain ⟨-, -, -, h4⟩ :=
    foldTuples_spec guess root (os_walk [] tree)
      { indexed := 0, skipped := 0, errors := 0, file_index := [],
        events := [Event.scanStart root] }
  constructor
  · have hd : (index_repo guess root tree).document
        = List.intercalate ['\n']
            ((os_walk [] tree).foldl (processTuple guess root)
              { indexed := 0, skipped := 0, errors := 0, file_index := [],
                events := [Event.scanStart root] }).file_index := rfl
    rw [hd, h4, visitedFiles]
    simp
  · rfl

/-- Looking a key up after updating the mapped base and appending a
tail: a key present in `base` resolves there (taking `extra`'s value when
`extra` has the key), otherwise the tail decides. -/
theorem lookupKey_mapUpd (k : String) (ex : List (String × JVal)) :
    ∀ (base tail : List (String × JVal)),
      lookupKey k (base.map (fun kv =>
          match lookupKey kv.1 ex with
          | some v => (kv.1, v)
          | none => kv) ++ tail)
        = match lookupKey k base with
          | some w =>
            match lookupKey k ex with
            | some v => some v
            | none => some w
          | none => lookupKey k tail := by
  intro base
  induction base with
  | nil =>
    intro tail
    simp [lookupKey]
  | cons kv rest ih =>
    intro tail
    by_cases h : kv.1 = k
    · rcases hm : lookupKey kv.1 ex with _ | v
      · rw [h] at hm
        simp [lookupKey, hm, h]
      · rw [h] at hm
        simp [lookupKey, hm, h]
    · rcases hm : lookupKey kv.1 ex with _ | v <;>
        simp [lookupKey, hm, h, ih tail]

/-- A key absent from a dict is absent from any filtering of it. -/
theorem lookupKey_filter_none (k : String) (p : String × JVal → Bool)
    (ex : List (String × JVal)) (h : lookupKey k ex = none) :
    lookupKey k (ex.filter p) = none := by
  induction ex with
  | nil => rfl
  | cons kv rest ih =>
    by_cases hk : kv.1 = k
    · simp [lookupKey, hk] at h
    · rw [lookupKey, if_neg hk] at h
      rw [List.filter_cons]
      split
      · rw [lookupKey, if_neg hk]
        exact ih h
      · exact ih h

/-- Filtering with a predicate that keeps every entry carrying key `k`
does not change the lookup of `k`. -/
theorem lookupKey_filter_keep (k : String) (p : String × JVal → Bool)
    (ex : List (String × JVal))
    (hp : ∀ kv ∈ ex, kv.1 = k → p kv = true) :
    lookupKey k (ex.filter p) = lookupKey k ex := by
  induction ex with
  | nil => rfl
  | cons kv rest ih =>
    have ih' := ih (fun kv' hm hk => hp kv' (List.mem_cons_of_mem _ hm) hk)
    by_cases hk : kv.1 = k
    · have hkeep : p kv = true := hp kv (List.mem_cons_self _ _) hk
      simp [List.filter_cons, hkeep, lookupKey, hk]
    · rw [List.filter_cons]
      split
      · rw [lookupKey, if_neg hk, lookupKey, if_neg hk]
        exact ih'
      · rw [ih', lookupKey, if_neg hk]

/-- dict.update override: a key present in `extra` resolves to `extra`'s
value in the updated dict. -/
theorem lookupKey_dictUpdate_override (base ex : List (String × JVal))
    (k : String) (v : JVal) (hv : lookupKey k ex = some v) :
    lookupKey k (dictUpdate base ex) = some v := by
  rw [dictUpdate, lookupKey_mapUpd k ex base]
  rcases hb : lookupKey k base with _ | w
  · rw [lookupKey_filter_keep k _ ex (fun kv _ hk => by rw [hk, hb]; rfl), hv]
  · rw [hv]

/-- dict.update keeps a base field whose key `extra` does not carry. -/
theorem lookupKey_dictUpdate_base (base ex : List (String × JVal))
    (k : String) (hnone : lookupKey k ex = none) :
    lookupKey k (dictUpdate base ex) = lookupKey k base := by
  rw [dictUpdate, lookupKey_mapUpd k ex base]
  rcases hb : lookupKey k base with _ | w
  · rw [lookupKey_filter_none k _ ex hnone]
  · rw [hnone]

/-- C9: every formatted record carries the run's correlation id (the
one `TRACE_ID` of the invocation) and `severity_number` derived from its
level by the mapping DEBUG→5, INFO→9, WARNING→13, ERROR→17, CRITICAL→21,
any other level→1; caller-supplied key/value pairs land at the record's
top level and override same-named base fields on collision. -/
theorem formatter_contract (trace_id utcnow_iso : String) (r : LogRecord) :
    (r.extra = none →
      lookupKey "trace_id" (OTELJsonFormatter.format trace_id utcnow_iso r)
          = some (JVal.s trace_id)
      ∧ lookupKey "severity_number"
            (OTELJsonFormatter.format trace_id utcnow_iso r)
          = some (JVal.n (map_severity r.levelno)))
    ∧ (∀ ex, r.extra = some ex → lookupKey "trace_id" ex = none →
        lookupKey "trace_id" (OTELJsonFormatter.format trace_id utcnow_iso r)
          = some (JVal.s trace_id))
    ∧ (∀ ex, r.extra = some ex → lookupKey "severity_number" ex = none →
        lookupKey "severity_number"
            (OTELJsonFormatter.format trace_id utcnow_iso r)
          = some (JVal.n (map_severity r.levelno)))
    ∧ (∀ ex k v, r.extra = some ex → lookupKey k ex = some v →
        lookupKey k (OTELJsonFormatter.format trace_id utcnow_iso r) = some v)
    ∧ (map_severity DEBUG = 5 ∧ map_severity INFO = 9 ∧
       map_severity WARNING = 13 ∧ map_severity ERROR = 17 ∧
       map_severity CRITICAL = 21)
    ∧ (∀ l, l ∉ [DEBUG, INFO, WARNING, ERROR, CRITICAL] →
        map_severity l = 1) := by
  refine ⟨?_, ?_, ?_, ?_, by decide, ?_⟩
  · intro hex
    rw [OTELJsonFormatter.format, hex]
    exact ⟨rfl, rfl⟩
  · intro ex hex hnone
    rw [OTELJsonFormatter.format, hex]
    rw [lookupKey_dictUpdate_base _ _ _ hnone]
    rfl
  · intro ex hex hnone
    rw [OTELJsonFormatter.format, hex]
    rw [lookupKey_dictUpdate_base _ _ _ hnone]
    rfl
  · intro ex k v hex hv
    rw [OTELJsonFormatter.format, hex]
    exact lookupKey_dictUpdate_override _ _ _ _ hv
  · intro l hl
    simp only [List.mem_cons, List.not_mem_nil, or_false, not_or] at hl
    obtain ⟨n1, n2, n3, n4, n5⟩ := hl
    simp only [DEBUG, INFO, WARNING, ERROR, CRITICAL] at n1 n2 n3 n4 n5
    simp [map_severity, DEBUG, INFO, WARNING, ERROR, CRITICAL,
          n1, n2, n3, n4, n5]

/-- Witness for C9: a record carrying extras gets them merged at top
level (the extra overrides the base "message"), and still carries the
run's trace id. -/
theorem formatter_contract_witness :
    lookupKey "message"
        (OTELJsonFormatter.format "tid-1" "2026-01-01T00:00:00"
          { levelname := "INFO", levelno := 20, message := "Indexed file",
            name := "repo_indexer", funcName := "index_repo",
            extra := some [("message", JVal.s "override"),
                           ("file_path", JVal.s "/r/a.txt")] })
      = some (JVal.s "override") :=
  (formatter_contract "tid-1" "2026-01-01T00:00:00"
      { levelname := "INFO", levelno := 20, message := "Indexed file",
        name := "repo_indexer", funcName := "index_repo",
        extra := some [("message", JVal.s "override"),
                       ("file_path", JVal.s "/r/a.txt")] }).2.2.2.1
    [("message", JVal.s "override"), ("file_path", JVal.s "/r/a.txt")]
    "message" (JVal.s "override") rfl (by decide)

end RepoToAgent
